/-
Verification of the vid_analys repository's core orchestration logic.

Shallow embedding of:
  * `src/api_handler.py`  — `ApiManager` (key pool: `__init__`, `get_active_key`,
    `disable_current_key`);
  * `src/gui.py`          — `VideoAnalyzerApp.process_course` (the per-item loop:
    content resolution, prompt composition, key fetch, gateway call,
    outcome classification, ledger writes);
  * `src/file_processor.py` — the signature of `extract_audio_and_transcribe`
    (the transcription fallback) as it is *called* from `process_course`.

The remote gateway (`call_api`) and the file system are modelled as an
environment of oracles, since the spec treats them as external collaborators.
Python strings are Lean `String`s; Python `str.strip()` is modelled over the
ASCII whitespace characters (space, \t, \n, \r, \x0b, \x0c), which covers
every string the claims touch.
-/
import Mathlib

namespace VidAnalys

/-! ## String helpers mirroring the Python primitives used by the source -/

/-- Python whitespace for `str.strip()` (ASCII subset; the full Unicode set
is irrelevant to the strings appearing in the claims). -/
def isSpaceChar (c : Char) : Bool :=
  c == ' ' || c == '\t' || c == '\n' || c == '\r' ||
  c == Char.ofNat 11 || c == Char.ofNat 12

/-- Python `s.strip()`: drop leading and trailing whitespace. -/
def pythonStrip (s : String) : String :=
  ⟨((s.data.dropWhile isSpaceChar).reverse.dropWhile isSpaceChar).reverse⟩

/-- Python `os.path.basename` on a POSIX path: the part after the last `/`. -/
def basename (p : String) : String :=
  ⟨(p.data.reverse.takeWhile (fun c => !(c == '/'))).reverse⟩

/-- `prefixChars a b` : the char list `a` is a prefix of `b`. -/
def prefixChars : List Char → List Char → Bool
  | [], _ => true
  | _ :: _, [] => false
  | a :: as, b :: bs => a == b && prefixChars as bs

/-- `subChars needle hay` : `needle` occurs as a contiguous run in `hay`
(Python's `needle in hay` on strings). -/
def subChars (needle : List Char) : List Char → Bool
  | [] => needle.isEmpty
  | c :: rest => prefixChars needle (c :: rest) || subChars needle rest

/-- `gui.py` line 208: `"TOKEN_LIMIT" in response`. -/
def tokenLimitIn (resp : String) : Bool :=
  subChars "TOKEN_LIMIT".data resp.data

/-! ## `ApiManager` (src/api_handler.py) -/

/-- One pool slot: `{"key": k.strip(), "active": True}`. -/
structure KeyEntry where
  key : String
  active : Bool
deriving DecidableEq, Repr

/-- Default entry handed to `List.getD`; only ever read at indices the
invariants keep in range. -/
def dfltEntry : KeyEntry := ⟨"", false⟩

/-- `ApiManager`: the list of keys plus the rotation cursor. -/
structure ApiManager where
  keys : List KeyEntry
  current_index : Nat
deriving DecidableEq, Repr

/-- `ApiManager.__init__`:
`self.keys = [{"key": k.strip(), "active": True} for k in api_keys if k.strip()]`,
`self.current_index = 0`. -/
def ApiManager.init (api_keys : List String) : ApiManager :=
  { keys := api_keys.filterMap fun k =>
      let s := pythonStrip k
      if s = "" then none else some ⟨s, true⟩
    current_index := 0 }

/-- `ApiManager.get_active_key`: scan `i = 0 .. len-1`, at index
`(current_index + i) % len`; on the first active slot set the cursor there and
return its key; otherwise return `None` leaving the state unchanged. -/
def get_active_key (m : ApiManager) : Option String × ApiManager :=
  if m.keys.isEmpty then (none, m)
  else
    match (List.range m.keys.length).find?
        (fun i => (m.keys.getD ((m.current_index + i) % m.keys.length) dfltEntry).active) with
    | some i =>
      let idx := (m.current_index + i) % m.keys.length
      (some (m.keys.getD idx dfltEntry).key, { m with current_index := idx })
    | none => (none, m)

/-- Set `active := False` on the entry at position `j` (identity when `j` is
out of range; the cursor invariant keeps it in range whenever the pool is
nonempty, matching `self.keys[self.current_index]["active"] = False`). -/
def disableAt : List KeyEntry → Nat → List KeyEntry
  | [], _ => []
  | e :: rest, 0 => { e with active := false } :: rest
  | e :: rest, n + 1 => e :: disableAt rest n

/-- `ApiManager.disable_current_key`: mark the slot at the cursor inactive;
no-op on an empty pool; the cursor does not move. -/
def disable_current_key (m : ApiManager) : ApiManager :=
  if m.keys.isEmpty then m
  else { m with keys := disableAt m.keys m.current_index }

/-! ## The orchestrator loop (src/gui.py, `process_course`) -/

/-- One catalog entry: `{"video": ..., "subtitle": ..., "text": ...}` as
produced by `scan_course_folder`. `subtitle`/`text` are `None` or a (nonempty)
file path. -/
structure MediaItem where
  video : String
  subtitle : Option String
  text : Option String
deriving DecidableEq, Repr

/-- Result of one `call_api` invocation: either a returned string, or a raised
exception — `PermissionError` for an invalid key (AuthError) or any other
re-raised exception (TransportError). `process_course` catches both with the
same `except Exception` clause. -/
inductive ApiResult where
  | ok (text : String)
  | authError
  | transportError
deriving DecidableEq, Repr

/-- External collaborators: the gateway (`call_api`, keyed by prompt and API
key) and the file system (`read_text_file`, keyed by path; it already absorbs
read failures into `""`). -/
structure Env where
  gateway : String → String → ApiResult
  readFile : String → String

/-- Content resolution, `gui.py` lines 186–194:
append the subtitle file's content when a subtitle path is present; append the
text file's content when a text path is present and differs from the subtitle
path; join with `"\n"`. When both lists stayed empty the source calls
`extract_audio_and_transcribe(video_path)` — but that function
(src/file_processor.py, line 43) requires a second argument `api_key`, so the
call raises `TypeError`; the error value models that raised exception. -/
def resolveContent (env : Env) (item : MediaItem) : Except Unit String :=
  let parts : List String :=
    (match item.subtitle with
     | some sp => [env.readFile sp]
     | none => []) ++
    (match item.text with
     | some tp => if item.subtitle = some tp then [] else [env.readFile tp]
     | none => [])
  if parts.isEmpty then .error ()
  else .ok (String.intercalate "\n" parts)

/-- Prompt composition, `gui.py` lines 197–199:
`f"{system_instruction}\n\nNội dung video:\n{combined_content}".strip()`, then
`if extra_prompt: prompt += f"\n\n{extra_prompt}"`. -/
def buildPrompt (sys content extra : String) : String :=
  let base := pythonStrip (sys ++ "\n\nNội dung video:\n" ++ content)
  if extra = "" then base else base ++ "\n\n" ++ extra

/-- Per-item classification outcome. -/
inductive Outcome where
  | summarized (text : String)
  | tokenLimited
  | skipped
deriving DecidableEq, Repr

/-- Mutable state threaded through the loop: the key pool, the output file's
accumulated content, and `token_limit_videos`. -/
structure RunState where
  mgr : ApiManager
  doc : String
  tl : List String
deriving DecidableEq, Repr

/-- How a run can abort: `return` after `get_active_key` yields `None`
(`NoActiveKeys`), or the `TypeError` raised on the broken transcription
fallback call escaping the loop. -/
inductive AbortReason where
  | noActiveKeys
  | typeError
deriving DecidableEq, Repr

/-- Continuation of the item loop after `call_api` has produced a result
(`gui.py` lines 206–219): an exception disables the current key and the loop
`continue`s (outcome Skipped, nothing written); a returned string is tested
for the `"TOKEN_LIMIT"` substring — on a hit the video's basename is recorded
in `token_limit_videos` (nothing written), otherwise the item block
`"\n## <basename>\n" + response.strip() + "\n"` is written. -/
def afterGateway (s : RunState) (item : MediaItem) (mgr1 : ApiManager) :
    ApiResult → RunState × Outcome
  | .authError => ({ s with mgr := disable_current_key mgr1 }, .skipped)
  | .transportError => ({ s with mgr := disable_current_key mgr1 }, .skipped)
  | .ok resp =>
    if tokenLimitIn resp then
      (⟨mgr1, s.doc, s.tl ++ [basename item.video]⟩, .tokenLimited)
    else
      (⟨mgr1, s.doc ++ "\n## " ++ basename item.video ++ "\n" ++ pythonStrip resp ++ "\n", s.tl⟩,
       .summarized resp)

/-- Continuation after `get_active_key` (`gui.py` lines 201–205): on `None`
the whole run returns (`NoActiveKeys`); otherwise `call_api` is invoked with
the prompt and key. -/
def afterKey (env : Env) (s : RunState) (item : MediaItem) (prompt : String) :
    Option String × ApiManager → Except (AbortReason × RunState) (RunState × Outcome)
  | (none, mgr1) => .error (.noActiveKeys, { s with mgr := mgr1 })
  | (some key, mgr1) => .ok (afterGateway s item mgr1 (env.gateway prompt key))

/-- Processing of a single catalog entry (`gui.py` lines 181–219): resolve
content (the broken fallback call raises, aborting the run), build the
prompt, fetch a key, call the gateway, classify. -/
def stepItem (env : Env) (sys extra : String) (s : RunState) (item : MediaItem) :
    Except (AbortReason × RunState) (RunState × Outcome) :=
  match resolveContent env item with
  | .error _ => .error (.typeError, s)
  | .ok content => afterKey env s item (buildPrompt sys content extra) (get_active_key s.mgr)

/-- The inner `for entry in videos` loop, also returning the trace of
per-item outcomes. -/
def runItems (env : Env) (sys extra : String) (s : RunState) :
    List MediaItem → Except (AbortReason × RunState) (RunState × List (MediaItem × Outcome))
  | [] => .ok (s, [])
  | item :: rest =>
    match stepItem env sys extra s item with
    | .error e => .error e
    | .ok (s1, o) =>
      match runItems env sys extra s1 rest with
      | .error e => .error e
      | .ok (s2, tr) => .ok (s2, (item, o) :: tr)

/-- The outer `for folder_name, videos in course_structure.items()` loop:
write `f"# {folder_name}\n"`, then process the folder's items. -/
def runCatalog (env : Env) (sys extra : String) (s : RunState) :
    List (String × List MediaItem) →
    Except (AbortReason × RunState) (RunState × List (String × List (MediaItem × Outcome)))
  | [] => .ok (s, [])
  | (fname, items) :: rest =>
    match runItems env sys extra { s with doc := s.doc ++ "# " ++ fname ++ "\n" } items with
    | .error e => .error e
    | .ok (s1, tr1) =>
      match runCatalog env sys extra s1 rest with
      | .error e => .error e
      | .ok (s2, tr) => .ok (s2, (fname, tr1) :: tr)

/-- `process_course` from the point the `ApiManager` is built and the output
file opened: run the catalog from an empty document. -/
def process_course (env : Env) (sys extra : String) (api_keys : List String)
    (catalog : List (String × List MediaItem)) :
    Except (AbortReason × RunState) (RunState × List (String × List (MediaItem × Outcome))) :=
  runCatalog env sys extra ⟨ApiManager.init api_keys, "", []⟩ catalog

/-- The document block one item contributes, as a function of its outcome:
only `Summarized` writes anything. -/
def renderItem (it : MediaItem) (o : Outcome) : String :=
  match o with
  | .summarized t => "\n## " ++ basename it.video ++ "\n" ++ pythonStrip t ++ "\n"
  | .tokenLimited => ""
  | .skipped => ""

/-- The document block one folder contributes: its heading line followed by
its items' blocks. -/
def renderFolder (f : String × List (MediaItem × Outcome)) : String :=
  "# " ++ f.1 ++ "\n" ++ String.join (f.2.map fun p => renderItem p.1 p.2)

/-! ## Operation traces over the key pool (for the temporal claim) -/

/-- The two pool operations `process_course` can interleave. -/
inductive Op where
  | getKey
  | disable
deriving DecidableEq, Repr

def applyOp (m : ApiManager) : Op → ApiManager
  | .getKey => (get_active_key m).2
  | .disable => disable_current_key m

def applyOps (m : ApiManager) (ops : List Op) : ApiManager :=
  ops.foldl applyOp m

/-! ## Definitions following the spec's words, for the refinement claims -/

/-- The prompt the spec's concatenation contract describes, with its literal
label `"Content:\n"`; compared against the source's `buildPrompt`. -/
def buildPromptClaim (sys content extra : String) : String :=
  let base := pythonStrip (sys ++ "\n\n" ++ "Content:\n" ++ content)
  if extra = "" then base else base ++ "\n\n" ++ extra

/-- The spec's concatenation contract with the label the source actually
uses (`"Nội dung video:\n"`), for the amended prompt claim. -/
def buildPromptAmendedSpec (sys content extra : String) : String :=
  let base := pythonStrip (sys ++ "\n\n" ++ "Nội dung video:\n" ++ content)
  if extra = "" then base else base ++ "\n\n" ++ extra

/-- The amended resolution value: the newline-join of the subtitle content
(when a subtitle path is present) and the text-sidecar content (when present
with a path different from the subtitle's), both kept when both are present;
`none` when no sidecar source exists (on that path the source's fallback call
raises). -/
def resolvedBoth (env : Env) (item : MediaItem) : Option String :=
  match item.subtitle, item.text with
  | some sp, some tp =>
    some (if sp = tp then env.readFile sp else env.readFile sp ++ "\n" ++ env.readFile tp)
  | some sp, none => some (env.readFile sp)
  | none, some tp => some (env.readFile tp)
  | none, none => none

/-! ## String lemmas -/

theorem sappend_assoc (a b c : String) : a ++ b ++ c = a ++ (b ++ c) :=
  String.ext (by simp [String.data_append])

theorem sappend_empty (a : String) : a ++ "" = a :=
  String.ext (by simp [String.data_append])

theorem sempty_append (a : String) : "" ++ a = a :=
  String.ext (by simp [String.data_append])

theorem sjoin_nil : String.join [] = "" := rfl

theorem sjoin_foldl (l : List String) :
    ∀ a : String, List.foldl (fun r s => r ++ s) a l = a ++ String.join l := by
  induction l with
  | nil => intro a; exact (sappend_empty a).symm
  | cons b l ih =>
    intro a
    show List.foldl (fun r s => r ++ s) (a ++ b) l = a ++ String.join (b :: l)
    rw [ih (a ++ b)]
    show a ++ b ++ String.join l = a ++ List.foldl (fun r s => r ++ s) ("" ++ b) l
    rw [ih ("" ++ b), sempty_append, sappend_assoc]

theorem sjoin_cons (a : String) (l : List String) :
    String.join (a :: l) = a ++ String.join l := by
  show List.foldl (fun r s => r ++ s) ("" ++ a) l = a ++ String.join l
  rw [sempty_append, sjoin_foldl]

theorem sintercalate_single (sep a : String) : String.intercalate sep [a] = a := rfl

theorem sintercalate_pair (sep a b : String) :
    String.intercalate sep [a, b] = a ++ sep ++ b := rfl

/-! ## Key-pool lemmas -/

theorem get_keys_eq (m : ApiManager) : ((get_active_key m).2).keys = m.keys := by
  unfold get_active_key
  split
  · rfl
  · split <;> rfl

theorem get_none_state (m m' : ApiManager) (h : get_active_key m = (none, m')) : m' = m := by
  unfold get_active_key at h
  split at h
  · exact (Prod.mk.injEq _ _ _ _ ▸ h).2.symm ▸ rfl
  · split at h
    · simp at h
    · exact ((Prod.mk.injEq _ _ _ _ ▸ h).2).symm

theorem get_some_spec (m : ApiManager) (k : String) (m' : ApiManager)
    (h : get_active_key m = (some k, m')) :
    m'.keys = m.keys ∧ m'.current_index < m.keys.length ∧
    (m.keys.getD m'.current_index dfltEntry).active = true := by
  unfold get_active_key at h
  split at h
  · simp at h
  · rename_i hne
    have hpos : 0 < m.keys.length := by
      cases hM : m.keys with
      | nil => rw [hM] at hne; simp at hne
      | cons a l => simp [hM]
    split at h
    · rename_i i hfind
      have hp := List.find?_some hfind
      have heq := Prod.mk.injEq _ _ _ _ ▸ h
      have hm' : m' = { m with current_index := (m.current_index + i) % m.keys.length } :=
        heq.2.symm
      subst hm'
      refine ⟨rfl, Nat.mod_lt _ hpos, hp⟩
    · simp at h

theorem get_some_key_active (m : ApiManager) (k : String) (m' : ApiManager)
    (h : get_active_key m = (some k, m')) :
    (m'.keys.getD m'.current_index dfltEntry).active = true := by
  obtain ⟨hk, _, ha⟩ := get_some_spec m k m' h
  rw [hk]
  exact ha

theorem disableAt_length (l : List KeyEntry) : ∀ j, (disableAt l j).length = l.length := by
  induction l with
  | nil => intro j; rfl
  | cons e rest ih =>
    intro j
    cases j with
    | zero => rfl
    | succ n => simp [disableAt, ih n]

theorem disableAt_getD_inactive (l : List KeyEntry) :
    ∀ j i, (l.getD i dfltEntry).active = false →
      ((disableAt l j).getD i dfltEntry).active = false := by
  induction l with
  | nil => intro j i h; exact h
  | cons e rest ih =>
    intro j i h
    cases j with
    | zero =>
      cases i with
      | zero => rfl
      | succ n => simpa [disableAt] using h
    | succ jn =>
      cases i with
      | zero => simpa [disableAt] using h
      | succ n =>
        have := ih jn n (by simpa using h)
        simpa [disableAt] using this

theorem disableAt_self (l : List KeyEntry) :
    ∀ j, j < l.length → ((disableAt l j).getD j dfltEntry).active = false := by
  induction l with
  | nil => intro j h; simp at h
  | cons e rest ih =>
    intro j h
    cases j with
    | zero => rfl
    | succ jn =>
      have := ih jn (by simpa using h)
      simpa [disableAt] using this

theorem disableAt_all_inactive (l : List KeyEntry) :
    ∀ j, l.all (fun e => !e.active) = true →
      (disableAt l j).all (fun e => !e.active) = true := by
  induction l with
  | nil => intro j h; exact h
  | cons e rest ih =>
    intro j h
    simp only [List.all_cons, Bool.and_eq_true] at h
    cases j with
    | zero =>
      rw [disableAt, List.all_cons]
      simpa using h.2
    | succ jn =>
      rw [disableAt, List.all_cons]
      rw [h.1, ih jn h.2]
      rfl

theorem applyOp_keys_inactive (m : ApiManager) (i : Nat)
    (h : (m.keys.getD i dfltEntry).active = false) (o : Op) :
    ((applyOp m o).keys.getD i dfltEntry).active = false := by
  cases o with
  | getKey =>
    show (((get_active_key m).2).keys.getD i dfltEntry).active = false
    rw [get_keys_eq]
    exact h
  | disable =>
    show ((disable_current_key m).keys.getD i dfltEntry).active = false
    unfold disable_current_key
    split
    · exact h
    · exact disableAt_getD_inactive m.keys m.current_index i h

theorem applyOps_keys_inactive (ops : List Op) :
    ∀ (m : ApiManager) (i : Nat), (m.keys.getD i dfltEntry).active = false →
      ((applyOps m ops).keys.getD i dfltEntry).active = false := by
  induction ops with
  | nil => intro m i h; exact h
  | cons o ops ih =>
    intro m i h
    exact ih (applyOp m o) i (applyOp_keys_inactive m i h o)

theorem get_exhausted (m : ApiManager) (h : m.keys.all (fun e => !e.active) = true) :
    get_active_key m = (none, m) := by
  unfold get_active_key
  split
  · rfl
  · rename_i hne
    have hpos : 0 < m.keys.length := by
      cases hM : m.keys with
      | nil => rw [hM] at hne; simp at hne
      | cons a l => simp [hM]
    have hfind : (List.range m.keys.length).find?
        (fun i => (m.keys.getD ((m.current_index + i) % m.keys.length) dfltEntry).active)
        = none := by
      rw [List.find?_eq_none]
      intro i _
      have hlt : (m.current_index + i) % m.keys.length < m.keys.length := Nat.mod_lt _ hpos
      rw [List.getD_eq_getElem m.keys dfltEntry hlt]
      have hmem := List.getElem_mem (l := m.keys) (n := (m.current_index + i) % m.keys.length) hlt
      have := List.all_eq_true.mp h _ hmem
      simp only [Bool.not_eq_true'] at this
      simp [this]
    rw [hfind]

theorem applyOp_all_inactive (m : ApiManager)
    (h : m.keys.all (fun e => !e.active) = true) (o : Op) :
    (applyOp m o).keys.all (fun e => !e.active) = true := by
  cases o with
  | getKey =>
    show (((get_active_key m).2).keys.all (fun e => !e.active)) = true
    rw [get_keys_eq]
    exact h
  | disable =>
    show ((disable_current_key m).keys.all (fun e => !e.active)) = true
    unfold disable_current_key
    split
    · exact h
    · exact disableAt_all_inactive m.keys m.current_index h

theorem applyOps_all_inactive (ops : List Op) :
    ∀ m : ApiManager, m.keys.all (fun e => !e.active) = true →
      (applyOps m ops).keys.all (fun e => !e.active) = true := by
  induction ops with
  | nil => intro m h; exact h
  | cons o ops ih =>
    intro m h
    exact ih (applyOp m o) (applyOp_all_inactive m h o)

/-! ## Loop lemmas -/

theorem afterKey_none (env : Env) (s : RunState) (item : MediaItem) (p : String)
    (m1 : ApiManager) :
    afterKey env s item p (none, m1) = .error (.noActiveKeys, { s with mgr := m1 }) := rfl

theorem afterKey_some (env : Env) (s : RunState) (item : MediaItem) (p : String)
    (k : String) (m1 : ApiManager) :
    afterKey env s item p (some k, m1) = .ok (afterGateway s item m1 (env.gateway p k)) := rfl

theorem stepItem_of_ok (env : Env) (sys extra : String) (s : RunState) (item : MediaItem)
    (c : String) (hres : resolveContent env item = .ok c) :
    stepItem env sys extra s item
      = afterKey env s item (buildPrompt sys c extra) (get_active_key s.mgr) := by
  unfold stepItem
  rw [hres]

theorem afterGateway_doc (s : RunState) (item : MediaItem) (m1 : ApiManager) (r : ApiResult) :
    (afterGateway s item m1 r).1.doc
      = s.doc ++ renderItem item (afterGateway s item m1 r).2 := by
  cases r with
  | authError => simp [afterGateway, renderItem, sappend_empty]
  | transportError => simp [afterGateway, renderItem, sappend_empty]
  | ok resp =>
    by_cases h : tokenLimitIn resp
    · simp [afterGateway, h, renderItem, sappend_empty]
    · simp [afterGateway, h, renderItem, sappend_assoc]

theorem stepItem_ok_doc (env : Env) (sys extra : String) (s : RunState) (item : MediaItem)
    (s1 : RunState) (o : Outcome)
    (h : stepItem env sys extra s item = .ok (s1, o)) :
    s1.doc = s.doc ++ renderItem item o := by
  unfold stepItem at h
  split at h
  · simp at h
  · rename_i c hr
    cases hk : get_active_key s.mgr with
    | mk ko m1 =>
      rw [hk] at h
      cases ko with
      | none => rw [afterKey_none] at h; simp at h
      | some k =>
        rw [afterKey_some] at h
        have h2 : afterGateway s item m1 (env.gateway (buildPrompt sys c extra) k) = (s1, o) := by
          injection h
        have hd := afterGateway_doc s item m1 (env.gateway (buildPrompt sys c extra) k)
        rw [h2] at hd
        exact hd

theorem runItems_spec (env : Env) (sys extra : String) (items : List MediaItem) :
    ∀ (s s2 : RunState) (tr : List (MediaItem × Outcome)),
      runItems env sys extra s items = .ok (s2, tr) →
      s2.doc = s.doc ++ String.join (tr.map fun p => renderItem p.1 p.2) ∧
      tr.map Prod.fst = items := by
  induction items with
  | nil =>
    intro s s2 tr h
    simp only [runItems] at h
    simp only [Except.ok.injEq, Prod.mk.injEq] at h
    obtain ⟨rfl, rfl⟩ := h
    simp [sjoin_nil, sappend_empty]
  | cons item rest ih =>
    intro s s2 tr h
    simp only [runItems] at h
    split at h
    · simp at h
    · rename_i s1 o hs
      split at h
      · simp at h
      · rename_i s2' tr' hrest
        simp only [Except.ok.injEq, Prod.mk.injEq] at h
        obtain ⟨rfl, rfl⟩ := h
        obtain ⟨hdoc, hfst⟩ := ih s1 s2' tr' hrest
        constructor
        · rw [hdoc, stepItem_ok_doc env sys extra s item s1 o hs]
          simp only [List.map_cons, sjoin_cons, sappend_assoc]
        · simp [hfst]

theorem runCatalog_spec (env : Env) (sys extra : String)
    (catalog : List (String × List MediaItem)) :
    ∀ (s s2 : RunState) (tr : List (String × List (MediaItem × Outcome))),
      runCatalog env sys extra s catalog = .ok (s2, tr) →
      s2.doc = s.doc ++ String.join (tr.map renderFolder) ∧
      tr.map (fun fe => (fe.1, fe.2.map Prod.fst)) = catalog := by
  induction catalog with
  | nil =>
    intro s s2 tr h
    simp only [runCatalog] at h
    simp only [Except.ok.injEq, Prod.mk.injEq] at h
    obtain ⟨rfl, rfl⟩ := h
    simp [sjoin_nil, sappend_empty]
  | cons fe rest ih =>
    intro s s2 tr h
    obtain ⟨fname, items⟩ := fe
    simp only [runCatalog] at h
    split at h
    · simp at h
    · rename_i s1 tr1 hitems
      split at h
      · simp at h
      · rename_i s2' tr2 hrest
        simp only [Except.ok.injEq, Prod.mk.injEq] at h
        obtain ⟨rfl, rfl⟩ := h
        obtain ⟨hdoc1, hfst1⟩ :=
          runItems_spec env sys extra items _ s1 tr1 hitems
        obtain ⟨hdoc2, hfst2⟩ := ih s1 s2' tr2 hrest
        constructor
        · rw [hdoc2, hdoc1]
          simp only [List.map_cons, sjoin_cons, renderFolder, sappend_assoc]
        · simp [hfst1, hfst2]

theorem find?_range_pos_zero (p : Nat → Bool) (n : Nat) (hn : 0 < n) (hp : p 0 = true) :
    (List.range n).find? p = some 0 := by
  cases n with
  | zero => omega
  | succ k =>
    rw [List.range_succ_eq_map]
    exact List.find?_cons_of_pos _ hp

theorem disable_getD_self (m1 : ApiManager) (hlt : m1.current_index < m1.keys.length) :
    ((disable_current_key m1).keys.getD m1.current_index dfltEntry).active = false := by
  unfold disable_current_key
  split
  · rename_i hemp
    exfalso
    cases hM : m1.keys with
    | nil => rw [hM] at hlt; simp at hlt
    | cons a l => rw [hM] at hemp; simp at hemp
  · exact disableAt_self m1.keys m1.current_index hlt

theorem runItems_cons_of_step (env : Env) (sys extra : String) (s s1 : RunState)
    (item : MediaItem) (o : Outcome) (rest : List MediaItem)
    (h : stepItem env sys extra s item = .ok (s1, o)) :
    runItems env sys extra s (item :: rest)
      = Except.map (fun q => (q.1, (item, o) :: q.2)) (runItems env sys extra s1 rest) := by
  simp only [runItems]
  rw [h]
  show (match runItems env sys extra s1 rest with
        | Except.error e => Except.error e
        | Except.ok (s2, tr) => Except.ok (s2, (item, o) :: tr)) = _
  cases runItems env sys extra s1 rest with
  | error e => rfl
  | ok q => rfl

/-! ## Concrete scenarios used by counterexamples and witnesses -/

/-- Environment whose file system serves `"S"` for the subtitle path and
`"T"` for everything else; the gateway always fails with a transport error. -/
def envC2 : Env := ⟨fun _ _ => .transportError, fun p => if p = "s.srt" then "S" else "T"⟩

/-- A media item carrying both a subtitle and a distinct text sidecar. -/
def itemC2 : MediaItem := ⟨"v.mp4", some "s.srt", some "t.txt"⟩

/-- Environment whose gateway always returns the text `"X"` and whose file
system always serves `"S"`. -/
def envOkX : Env := ⟨fun _ _ => .ok "X", fun _ => "S"⟩

/-- A media item with only a subtitle sidecar. -/
def itemSub : MediaItem := ⟨"d/v.mp4", some "d/v.srt", none⟩

/-- Environment whose gateway always fails with a transport error and whose
file system always serves `"S"`. -/
def envErr : Env := ⟨fun _ _ => .transportError, fun _ => "S"⟩

/-- Environment whose gateway returns a summary that merely mentions the
token-limit sentinel inside otherwise-normal text. -/
def envTok : Env := ⟨fun _ _ => .ok "a fine summary mentioning TOKEN_LIMIT in passing", fun _ => "S"⟩

/-! ## Claims -/

/-- Claim C1, counterexample: with the two-credential pool built from
`["a", "b"]` and no disables, the second consecutive `get_active_key` call
returns `"a"` again instead of `"b"`, so N consecutive calls do not return
each credential exactly once in insertion order. -/
theorem claim_C1_counterexample :
    (get_active_key ((get_active_key (ApiManager.init ["a", "b"])).2)).1 = some "a" ∧
    (get_active_key ((get_active_key (ApiManager.init ["a", "b"])).2)).1 ≠ some "b" := by
  constructor
  · rfl
  · decide

/-- Claim C1, amended: with no credential disabled (all slots active) and the
cursor in range, every `get_active_key` call returns the credential at the
cursor and leaves the state unchanged — so consecutive calls on a fresh pool
all return the first credential; rotation happens only past disabled slots,
not per call. -/
theorem claim_C1_amended (m : ApiManager)
    (hlt : m.current_index < m.keys.length)
    (hact : m.keys.all KeyEntry.active = true) :
    get_active_key m = (some ((m.keys.getD m.current_index dfltEntry).key), m) := by
  have hpos : 0 < m.keys.length := Nat.lt_of_le_of_lt (Nat.zero_le _) hlt
  have hp0 : (m.keys.getD ((m.current_index + 0) % m.keys.length) dfltEntry).active = true := by
    rw [Nat.add_zero, Nat.mod_eq_of_lt hlt, List.getD_eq_getElem m.keys dfltEntry hlt]
    exact List.all_eq_true.mp hact _ (List.getElem_mem hlt)
  have hfind : (List.range m.keys.length).find?
      (fun i => (m.keys.getD ((m.current_index + i) % m.keys.length) dfltEntry).active)
      = some 0 :=
    find?_range_pos_zero _ _ hpos hp0
  unfold get_active_key
  split
  · rename_i hemp
    exfalso
    cases hM : m.keys with
    | nil => rw [hM] at hlt; simp at hlt
    | cons a l => rw [hM] at hemp; simp at hemp
  · rw [hfind]
    show (some (m.keys.getD ((m.current_index + 0) % m.keys.length) dfltEntry).key,
          { m with current_index := (m.current_index + 0) % m.keys.length })
        = (some ((m.keys.getD m.current_index dfltEntry).key), m)
    rw [Nat.add_zero, Nat.mod_eq_of_lt hlt]

/-- Witness for the amended claim C1 at the concrete fresh two-key pool. -/
theorem claim_C1_amended_witness :
    get_active_key (ApiManager.init ["a", "b"])
      = (some (((ApiManager.init ["a", "b"]).keys.getD
          (ApiManager.init ["a", "b"]).current_index dfltEntry)).key,
         ApiManager.init ["a", "b"]) :=
  claim_C1_amended (ApiManager.init ["a", "b"]) (by decide) (by decide)

/-- Claim C2, counterexample: for an item with both a subtitle and a distinct
text sidecar, the resolved content is the newline-join of both contents, not
the subtitle content alone, so resolution does not pick exactly one source by
precedence. -/
theorem claim_C2_counterexample :
    resolveContent envC2 itemC2 = .ok "S\nT" ∧
    resolveContent envC2 itemC2 ≠ .ok "S" := by
  refine ⟨rfl, fun h => ?_⟩
  exact absurd (Except.ok.inj h) (by decide)

/-- Claim C2, amended: whenever at least one sidecar source exists, the
resolved content is the newline-join of the subtitle content (when present)
and the text-sidecar content (when present with a path different from the
subtitle's), both included when both are present; with no sidecar source the
source's fallback call fails (see C6). -/
theorem claim_C2_amended (env : Env) (item : MediaItem) (c : String)
    (h : resolvedBoth env item = some c) :
    resolveContent env item = .ok c := by
  obtain ⟨v, sub, txt⟩ := item
  cases sub with
  | none =>
    cases txt with
    | none => simp [resolvedBoth] at h
    | some tp =>
      simp only [resolvedBoth, Option.some.injEq] at h
      subst h
      rfl
  | some sp =>
    cases txt with
    | none =>
      simp only [resolvedBoth, Option.some.injEq] at h
      subst h
      rfl
    | some tp =>
      simp only [resolvedBoth, Option.some.injEq] at h
      subst h
      by_cases hsp : sp = tp
      · simp [resolveContent, hsp, sintercalate_single]
      · simp [resolveContent, hsp, sintercalate_pair]

/-- Witness for the amended claim C2 at an item with both sources present. -/
theorem claim_C2_amended_witness : resolveContent envC2 itemC2 = .ok "S\nT" :=
  claim_C2_amended envC2 itemC2 "S\nT" rfl

/-- Claim C6 (code bug): on an item with no subtitle and no text sidecar the
source reaches `extract_audio_and_transcribe(video_path)`, a call that omits
the function's required `api_key` parameter and therefore raises `TypeError`
instead of returning a (possibly empty) string; content resolution fails on
that path, for every environment. -/
theorem claim_C6_code_eval (env : Env) (v : String) :
    resolveContent env ⟨v, none, none⟩ = .error () := rfl

/-- Claim C7, counterexample: at `sys = "a"`, `content = "b"`,
`extra = ""` the source's prompt uses the literal `"Nội dung video:\n"`, not
the `"Content:\n"` stated by the claim, so the built prompt differs from the
claimed concatenation. -/
theorem claim_C7_counterexample : buildPrompt "a" "b" "" ≠ buildPromptClaim "a" "b" "" := by
  decide

/-- Claim C7, amended: the prompt equals
`systemInstruction + "\n\n" + "Nội dung video:\n" + resolvedContent`, trimmed
of leading/trailing whitespace as a whole, with `"\n\n" + extraInstruction`
appended iff `extraInstruction` is non-empty; it is a pure function of its
arguments, and an empty `extraInstruction` adds no trailing separator. -/
theorem claim_C7_amended (sys content extra : String) :
    buildPrompt sys content extra = buildPromptAmendedSpec sys content extra ∧
    (extra = "" →
      buildPrompt sys content extra
        = pythonStrip (sys ++ "\n\nNội dung video:\n" ++ content)) := by
  have hlit : (("\n\n" : String) ++ "Nội dung video:\n") = "\n\nNội dung video:\n" := by decide
  have hbase : sys ++ "\n\n" ++ "Nội dung video:\n" ++ content
      = sys ++ "\n\nNội dung video:\n" ++ content := by
    rw [sappend_assoc sys "\n\n" "Nội dung video:\n", hlit]
  constructor
  · simp only [buildPrompt, buildPromptAmendedSpec]
    rw [hbase]
  · intro he
    subst he
    simp [buildPrompt]

/-- Witness for the amended claim C7 at concrete inputs with empty extra
instruction. -/
theorem claim_C7_amended_witness :
    buildPrompt "a" "b" "" = buildPromptAmendedSpec "a" "b" "" ∧
    buildPrompt "a" "b" "" = pythonStrip ("a" ++ "\n\nNội dung video:\n" ++ "b") :=
  ⟨(claim_C7_amended "a" "b" "").1, (claim_C7_amended "a" "b" "").2 rfl⟩

/-- Claim C8, counterexample: the pool built from `["a", "a"]` keeps both
occurrences as distinct slots — the credential values are not deduplicated. -/
theorem claim_C8_counterexample :
    (ApiManager.init ["a", "a"]).keys.map KeyEntry.key = ["a", "a"] ∧
    ¬ ((ApiManager.init ["a", "a"]).keys.map KeyEntry.key).Nodup := by
  constructor
  · rfl
  · decide

/-- Claim C8, amended: the pool is created by trimming each input entry,
discarding entries empty after trimming, and preserving order; duplicates are
retained as distinct slots (no deduplication); every created credential
starts active and the cursor starts at 0. -/
theorem claim_C8_amended (ks : List String) :
    (ApiManager.init ks).keys.map KeyEntry.key
        = ((ks.map pythonStrip).filter fun s => !(s == "")) ∧
    (ApiManager.init ks).keys.all KeyEntry.active = true ∧
    (ApiManager.init ks).current_index = 0 := by
  refine ⟨?_, ?_, rfl⟩
  · induction ks with
    | nil => rfl
    | cons k ks ih =>
      by_cases h : pythonStrip k = ""
      · simpa [ApiManager.init, List.filterMap_cons, List.filter_cons, h]
          using ih
      · simpa [ApiManager.init, List.filterMap_cons, List.filter_cons, h]
          using ih
  · rw [List.all_eq_true]
    intro e he
    simp only [ApiManager.init, List.mem_filterMap] at he
    obtain ⟨a, _, hfa⟩ := he
    split at hfa
    · exact Option.noConfusion hfa
    · cases Option.some.inj hfa
      rfl

/-- Claim C3: when the gateway call for an item raises an auth or transport
error, the step disables the credential at the pool's cursor (the slot turns
inactive), records outcome Skipped, writes nothing to the document, keeps the
over-limit list unchanged, and the loop continues with the remaining items
from the updated pool — the failure never escapes as a run abort and the
request is not re-issued for this item. -/
theorem claim_C3 (env : Env) (sys extra : String) (s : RunState) (item : MediaItem)
    (rest : List MediaItem) (c k : String) (m1 : ApiManager)
    (hres : resolveContent env item = .ok c)
    (hkey : get_active_key s.mgr = (some k, m1))
    (hgw : env.gateway (buildPrompt sys c extra) k = .authError ∨
           env.gateway (buildPrompt sys c extra) k = .transportError) :
    stepItem env sys extra s item = .ok (⟨disable_current_key m1, s.doc, s.tl⟩, .skipped) ∧
    runItems env sys extra s (item :: rest)
      = Except.map (fun q => (q.1, (item, Outcome.skipped) :: q.2))
          (runItems env sys extra ⟨disable_current_key m1, s.doc, s.tl⟩ rest) ∧
    ((disable_current_key m1).keys.getD m1.current_index dfltEntry).active = false := by
  have hs : stepItem env sys extra s item
      = .ok (⟨disable_current_key m1, s.doc, s.tl⟩, .skipped) := by
    rw [stepItem_of_ok env sys extra s item c hres, hkey, afterKey_some]
    rcases hgw with hg | hg <;> rw [hg] <;> rfl
  obtain ⟨hkeys, hlt, _⟩ := get_some_spec s.mgr k m1 hkey
  exact ⟨hs, runItems_cons_of_step env sys extra s _ item _ rest hs,
    disable_getD_self m1 (by rw [hkeys]; exact hlt)⟩

/-- The pool state after `get_active_key` on a fresh two-key pool, used by
the C3 witness. -/
def m1C3 : ApiManager := ⟨[⟨"k1", true⟩, ⟨"k2", true⟩], 0⟩

/-- The loop state entering the C3 witness step. -/
def sC3 : RunState := ⟨m1C3, "D", ["t"]⟩

/-- Witness for claim C3 at a concrete failing gateway call. -/
theorem claim_C3_witness :
    stepItem envErr "sy" "ex" sC3 itemSub
        = .ok (⟨disable_current_key m1C3, sC3.doc, sC3.tl⟩, .skipped) ∧
    runItems envErr "sy" "ex" sC3 [itemSub]
      = Except.map (fun q => (q.1, (itemSub, Outcome.skipped) :: q.2))
          (runItems envErr "sy" "ex" ⟨disable_current_key m1C3, sC3.doc, sC3.tl⟩ []) ∧
    ((disable_current_key m1C3).keys.getD m1C3.current_index dfltEntry).active = false :=
  claim_C3 envErr "sy" "ex" sC3 itemSub [] "S" "k1" m1C3 rfl rfl (Or.inr rfl)

/-- Claim C4: when the pool reports no active key for an item, the run
aborts with `NoActiveKeys` in exactly the loop state reached so far — the
remaining items (`rest`) are never processed, the document and over-limit
list are preserved unchanged inside the abort state, and the result is the
same for every gateway, so no gateway call is made for the current item. -/
theorem claim_C4 (env : Env) (sys extra : String) (s : RunState) (item : MediaItem)
    (rest : List MediaItem) (c : String)
    (hres : resolveContent env item = .ok c)
    (hkey : (get_active_key s.mgr).1 = none) :
    ∀ g : String → String → ApiResult,
      runItems ⟨g, env.readFile⟩ sys extra s (item :: rest) = .error (.noActiveKeys, s) := by
  intro g
  have hres2 : resolveContent ⟨g, env.readFile⟩ item = .ok c := hres
  have hx : get_active_key s.mgr = (none, (get_active_key s.mgr).2) := by
    rw [← hkey]
  have h2 : (get_active_key s.mgr).2 = s.mgr := get_none_state _ _ hx
  have hpair : get_active_key s.mgr = (none, s.mgr) := by rw [hx, h2]
  simp only [runItems]
  rw [stepItem_of_ok ⟨g, env.readFile⟩ sys extra s item c hres2, hpair, afterKey_none]

/-- The loop state with an exhausted pool and a partially written document,
used by the C4 witness. -/
def sC4 : RunState := ⟨⟨[⟨"k", false⟩], 0⟩, "# F1\n", []⟩

/-- Witness for claim C4 at a concrete exhausted pool. -/
theorem claim_C4_witness :
    runItems ⟨fun _ _ => ApiResult.ok "X", envOkX.readFile⟩ "sys" "" sC4 [itemSub]
      = .error (.noActiveKeys, sC4) :=
  claim_C4 envOkX "sys" "" sC4 itemSub [] "S" rfl rfl (fun _ _ => ApiResult.ok "X")

/-- Claim C5: a completed run's output document is exactly, in catalog order,
one folder heading block per catalog folder (written independently of the
folder's outcomes), each followed by the item blocks
`"\n## <basename>\n<stripped response>\n"` of precisely that folder's
Summarized items in catalog order, with no duplication; the run's trace
matches the catalog folder-by-folder and item-by-item. -/
theorem claim_C5 (env : Env) (sys extra : String) (api_keys : List String)
    (catalog : List (String × List MediaItem)) (s2 : RunState)
    (tr : List (String × List (MediaItem × Outcome)))
    (h : process_course env sys extra api_keys catalog = .ok (s2, tr)) :
    s2.doc = String.join (tr.map renderFolder) ∧
    tr.map (fun fe => (fe.1, fe.2.map Prod.fst)) = catalog := by
  obtain ⟨hdoc, hcat⟩ := runCatalog_spec env sys extra catalog _ s2 tr h
  exact ⟨by rw [hdoc]; exact sempty_append _, hcat⟩

/-- The single-folder catalog of the C5 witness. -/
def catC5 : List (String × List MediaItem) := [("F1", [itemSub])]

/-- The final loop state of the C5 witness run. -/
def sC5 : RunState := ⟨⟨[⟨"k1", true⟩], 0⟩, "# F1\n\n## v.mp4\nX\n", []⟩

/-- The outcome trace of the C5 witness run. -/
def trC5 : List (String × List (MediaItem × Outcome)) :=
  [("F1", [(itemSub, .summarized "X")])]

/-- Witness for claim C5 on a concrete completed one-item run. -/
theorem claim_C5_witness :
    sC5.doc = String.join (trC5.map renderFolder) ∧
    trC5.map (fun fe => (fe.1, fe.2.map Prod.fst)) = catC5 :=
  claim_C5 envOkX "sys" "" ["k1"] catC5 sC5 trC5 rfl

/-- Claim C9: (1) after `disable_current_key` is applied to the state whose
cursor marks the credential just returned by `get_active_key`, no later
`get_active_key` — after any interleaving of pool operations — ever returns
that slot again (the returned slot, identified by the post-call cursor, is
never the disabled one); (2) once every credential is inactive, every later
`get_active_key` returns `none` and leaves the state unmutated, after any
interleaving of pool operations. -/
theorem claim_C9 :
    (∀ (m : ApiManager) (k : String) (m1 : ApiManager),
        get_active_key m = (some k, m1) →
        ∀ (ops : List Op) (k' : String) (m4 : ApiManager),
          get_active_key (applyOps (disable_current_key m1) ops) = (some k', m4) →
          m4.current_index ≠ m1.current_index) ∧
    (∀ m : ApiManager, m.keys.all (fun e => !e.active) = true →
        ∀ ops : List Op,
          get_active_key (applyOps m ops) = (none, applyOps m ops)) := by
  constructor
  · intro m k m1 h ops k' m4 h4 hcontra
    obtain ⟨hkeys, hlt, _⟩ := get_some_spec m k m1 h
    have hlt1 : m1.current_index < m1.keys.length := by rw [hkeys]; exact hlt
    have hdis := disable_getD_self m1 hlt1
    have hin := applyOps_keys_inactive ops (disable_current_key m1) m1.current_index hdis
    obtain ⟨hkeys4, _, hact4⟩ :=
      get_some_spec (applyOps (disable_current_key m1) ops) k' m4 h4
    rw [hcontra] at hact4
    rw [hact4] at hin
    exact Bool.noConfusion hin
  · intro m hall ops
    exact get_exhausted (applyOps m ops) (applyOps_all_inactive ops m hall)

/-- Witness for claim C9: disabling the first returned key of a fresh
two-key pool makes the next call return the other slot, and a fully disabled
one-key pool keeps answering `none` without mutation. -/
theorem claim_C9_witness :
    ((get_active_key (applyOps (disable_current_key
        ((get_active_key (ApiManager.init ["a", "b"])).2)) [])).2).current_index
      ≠ ((get_active_key (ApiManager.init ["a", "b"])).2).current_index ∧
    get_active_key (applyOps (ApiManager.mk [⟨"a", false⟩] 0) [Op.disable])
      = (none, applyOps (ApiManager.mk [⟨"a", false⟩] 0) [Op.disable]) := by
  constructor
  · exact claim_C9.1 (ApiManager.init ["a", "b"]) "a" _ rfl [] "b" _ rfl
  · exact claim_C9.2 (ApiManager.mk [⟨"a", false⟩] 0) (by decide) [Op.disable]

/-- Claim C10: with a returned gateway string, the step's outcome is
TokenLimited — video basename appended to the over-limit list, nothing
written to the document — exactly when `"TOKEN_LIMIT"` occurs as a substring
of the response; otherwise the item block is written and the outcome is
Summarized. In particular a genuine summary merely containing
`"TOKEN_LIMIT"` is recorded as over-limit and never written. -/
theorem claim_C10 (env : Env) (sys extra : String) (s : RunState) (item : MediaItem)
    (c k resp : String) (m1 : ApiManager)
    (hres : resolveContent env item = .ok c)
    (hkey : get_active_key s.mgr = (some k, m1))
    (hgw : env.gateway (buildPrompt sys c extra) k = .ok resp) :
    (tokenLimitIn resp = true →
      stepItem env sys extra s item
        = .ok (⟨m1, s.doc, s.tl ++ [basename item.video]⟩, .tokenLimited)) ∧
    (tokenLimitIn resp = false →
      stepItem env sys extra s item
        = .ok (⟨m1, s.doc ++ "\n## " ++ basename item.video ++ "\n" ++ pythonStrip resp ++ "\n",
                s.tl⟩, .summarized resp)) := by
  have hstep : stepItem env sys extra s item
      = .ok (afterGateway s item m1 (ApiResult.ok resp)) := by
    rw [stepItem_of_ok env sys extra s item c hres, hkey, afterKey_some, hgw]
  constructor
  · intro ht
    rw [hstep]
    simp [afterGateway, ht]
  · intro hf
    rw [hstep]
    simp [afterGateway, hf]

/-- The fresh one-key loop state of the C10 witness. -/
def sC10 : RunState := ⟨⟨[⟨"k1", true⟩], 0⟩, "", []⟩

/-- Witness for claim C10: a successful summary that merely mentions the
sentinel substring is classified TokenLimited and not written. -/
theorem claim_C10_witness :
    tokenLimitIn "a fine summary mentioning TOKEN_LIMIT in passing" = true ∧
    stepItem envTok "sys" "" sC10 itemSub
      = .ok (⟨⟨[⟨"k1", true⟩], 0⟩, sC10.doc, sC10.tl ++ [basename itemSub.video]⟩,
             .tokenLimited) :=
  ⟨by decide,
   (claim_C10 envTok "sys" "" sC10 itemSub "S" "k1"
      "a fine summary mentioning TOKEN_LIMIT in passing"
      ⟨[⟨"k1", true⟩], 0⟩ rfl rfl rfl).1 (by decide)⟩

end VidAnalys
